import Mathlib

/-!
Shallow embedding of `pdfnumbering` (files `pdfnumbering/core.py` and
`src/pdfnumbering/cli.py`) and verification of its specification.

Machine integers are modelled as `Int`/`Nat` (Python integers are unbounded),
page coordinates and positions as `Rat`.  Fallible code returns `Except`.
-/

namespace PdfNumbering

/-- Horizontal alignment, embedding `fpdf.Align` (values L, C, R used here). -/
inductive Align where
  | L
  | C
  | R
deriving DecidableEq, Repr

/-- A stamp overlay produced by `_create_stamp`: the styled text together with
the text-insertion point handed to `fpdf` (`set_x`/`set_y` results) and the
styling that is passed through. -/
structure Stamp where
  text : String
  x : ℚ
  y : ℚ
  align : Align
  fontFamily : String
  fontSize : ℤ
  color : String
deriving DecidableEq, Repr

/-- A PDF page as the core sees it: its zero-based `page_number`, its mediabox
width/height in points, and the list of overlays merged onto it so far
(`merge_page` appends an overlay). -/
structure Page where
  pageNumber : ℤ
  width : ℚ
  height : ℚ
  overlays : List Stamp
deriving DecidableEq, Repr

/-- The `PdfNumberer` dataclass of `pdfnumbering/core.py` with its defaults.
`ignore` and `skip` are containers of page indices tested by membership. -/
structure PdfNumberer where
  color : String := "#ff0000"
  font_size : ℤ := 32
  font_family : String := "Helvetica"
  align : Align := Align.L
  position : ℚ × ℚ := (0, 0)
  margin : ℚ × ℚ := (28, 28)
  start : ℤ := 1
  ignore : List ℤ := []
  skip : List ℤ := []
deriving DecidableEq, Repr

/-- Embedding of `PdfNumberer._create_page_numbers` (core.py lines 36-46):
the generator is translated into structural recursion on the list of pages,
with the running `page_number` counter passed explicitly.  `none` stands for
the generator yielding `None` (a Skip decision), `some n` for yielding the
number `n` (a Stamp decision). -/
def createPageNumbersAux (cfg : PdfNumberer) (counter : ℤ) : List ℤ → List (Option ℤ)
  | [] => []
  | p :: ps =>
    if p ∈ cfg.ignore then
      none :: createPageNumbersAux cfg counter ps
    else if p ∈ cfg.skip then
      none :: createPageNumbersAux cfg (counter + 1) ps
    else
      some counter :: createPageNumbersAux cfg (counter + 1) ps

/-- `_create_page_numbers` on a page sequence: reads each page's
`page_number` attribute and starts the counter at `self.start`. -/
def createPageNumbers (cfg : PdfNumberer) (pages : List Page) : List (Option ℤ) :=
  createPageNumbersAux cfg cfg.start (pages.map Page.pageNumber)

/-- `math.copysign m p` for the sign conventions reachable here: Python's
`copysign` returns `|m|` with the sign of `p`, and an integer/rational zero
carries a positive sign. -/
def copysign (m p : ℚ) : ℚ := if p < 0 then -|m| else |m|

/-- How `fpdf` interprets the value given to `set_x` (resp. `set_y`) on a page
of width (resp. height) `dim`: a negative value is measured from the
right/bottom edge, so the absolute coordinate is `dim + v`. -/
def fpdfCoord (dim v : ℚ) : ℚ := if v < 0 then dim + v else v

/-- Embedding of `PdfNumberer._create_stamp` (core.py lines 48-62): builds a
one-page overlay whose text-insertion point is
`set_y(copysign(margin[1], position[1]) + position[1])`,
`set_x(copysign(margin[0], position[0]) + position[0])`, interpreted on a page
of the given dimensions, with the configured styling passed through. -/
def createStamp (cfg : PdfNumberer) (page : Page) (text : String) : Stamp :=
  { text := text
    x := fpdfCoord page.width (copysign cfg.margin.1 cfg.position.1 + cfg.position.1)
    y := fpdfCoord page.height (copysign cfg.margin.2 cfg.position.2 + cfg.position.2)
    align := cfg.align
    fontFamily := cfg.font_family
    fontSize := cfg.font_size
    color := cfg.color }

/-- `page.merge_page(stamp)`: the overlay is merged onto the page. -/
def mergeStamp (page : Page) (s : Stamp) : Page :=
  { page with overlays := page.overlays ++ [s] }

/-- Embedding of `PdfNumberer.add_page_numbering` (core.py lines 27-34):
zips the decisions with the pages; a page whose decision is `None` is left
alone, otherwise the stamp for `str(page_number)` is merged onto it. -/
def addPageNumbering (cfg : PdfNumberer) (pages : List Page) : List Page :=
  (List.zip (createPageNumbers cfg pages) pages).map fun dp =>
    match dp.1 with
    | none => dp.2
    | some n => mergeStamp dp.2 (createStamp cfg dp.2 (toString n))

/-- The numbers carried by the Stamp decisions, in page order. -/
def stampedNumbers (cfg : PdfNumberer) (pages : List Page) : List ℤ :=
  (createPageNumbers cfg pages).filterMap id

/-! ## The CLI layer (`src/pdfnumbering/cli.py`) -/

/-- Is `c` a hexadecimal digit? -/
def isHexDig (c : Char) : Bool :=
  c.isDigit || ('a' ≤ c && c ≤ 'f') || ('A' ≤ c && c ≤ 'F')

/-- Numeric value of one hexadecimal digit. -/
def hexDigitVal (c : Char) : ℕ :=
  if c.isDigit then c.toNat - 48
  else if 'a' ≤ c ∧ c ≤ 'f' then c.toNat - 87
  else if 'A' ≤ c ∧ c ≤ 'F' then c.toNat - 55
  else 0

/-- Value of a list of hexadecimal digits. -/
def hexByte (cs : List Char) : ℕ :=
  cs.foldl (fun a c => 16 * a + hexDigitVal c) 0

/-- Decidable equality for `Except`, so results of fallible code can be
evaluated on concrete inputs. -/
instance {ε α : Type} [DecidableEq ε] [DecidableEq α] : DecidableEq (Except ε α) :=
  fun x y =>
    match x, y with
    | .ok a, .ok b =>
      if h : a = b then isTrue (by rw [h]) else isFalse (by simp [h])
    | .error a, .error b =>
      if h : a = b then isTrue (by rw [h]) else isFalse (by simp [h])
    | .ok _, .error _ => isFalse (by simp)
    | .error _, .ok _ => isFalse (by simp)

/-- Modelled from the spec: `hex2rgb` of `pdfnumbering/color.py`, which is not
part of the sources at hand (only its callers are).  Per the spec, a color
string that is exactly 6 hex digits, optionally prefixed with `#`, is
converted to an (R,G,B) triple each in [0,255]; anything else fails with an
`InvalidColorFormat` error (a `ValueError` subclass, caught as `ValueError`
by `process_args`).  Defined on the character list of the string. -/
def hex2rgbChars (cs : List Char) : Except String (ℕ × ℕ × ℕ) :=
  let t := if cs.head? = some '#' then cs.tail else cs
  if t.length = 6 && t.all isHexDig then
    .ok (hexByte (t.take 2), hexByte ((t.drop 2).take 2), hexByte (t.drop 4))
  else
    .error "InvalidColorFormat"

/-- `hex2rgb` on a color string. -/
def hex2rgb (s : String) : Except String (ℕ × ℕ × ℕ) :=
  hex2rgbChars s.data

/-- `fpdf.Align.coerce` applied to the uppercased first letter of the
alignment choice, as done in `process_args` (`Align.coerce(args.text_align[0].upper())`).
The CLI restricts choices to left/center/right, so only L/C/R are reachable. -/
def coerceAlign (s : String) : Align :=
  match s.data with
  | [] => Align.R
  | c :: _ =>
    let u := c.toUpper
    if u = 'L' then Align.L
    else if u = 'C' then Align.C
    else Align.R

/-- The parsed CLI arguments relevant to `process_args`/`main`
(cli.py `create_parser`), with the parser's defaults, plus the
`sys.stdout.isatty()` environment bit that `process_args` consults. -/
structure Args where
  first_number : ℤ := 1
  ignore_pages : List ℤ := []
  skip_pages : List ℤ := []
  stamp_format : String := "\x7b\x7d"
  font_size : ℤ := 12
  font_family : String := "Helvetica"
  text_color : String := "#000000"
  text_align : String := "center"
  text_position : ℚ × ℚ := (-1, -1)
  position : String := ""
  page_margin : Option (ℤ × ℤ) := none
  output : String := ""
  stdout_isatty : Bool := true
deriving DecidableEq, Repr

/-- The arguments after `process_args` post-processing. -/
structure ProcessedArgs where
  first_number : ℤ
  ignore_pages : List ℤ
  skip_pages : List ℤ
  stamp_format : String
  font_size : ℤ
  font_family : String
  text_color : ℕ × ℕ × ℕ
  text_align : Align
  text_position : ℚ × ℚ
  page_margin : ℤ × ℤ
  output : String
deriving DecidableEq, Repr

/-- The default page margin derivation of `process_args` (cli.py lines
146-148): when `--page-margin` is absent, `(10, 10 + font_size // 2)`, where
`//` is Python floor division (`Int.fdiv`). -/
def derivePageMargin (page_margin : Option (ℤ × ℤ)) (font_size : ℤ) : ℤ × ℤ :=
  match page_margin with
  | none => (10, 10 + Int.fdiv font_size 2)
  | some m => m

/-- The anchor-resolution chain of `process_args` (cli.py lines 154-176):
given the `--position` choice, the current `--text-position` value and the
current alignment, returns the final text position and alignment.  Note that
the trailing `else` branch overwrites both with the bottom-center defaults. -/
def processAnchor (position : String) (tp : ℚ × ℚ) (ta : Align) : (ℚ × ℚ) × Align :=
  if position = "bc" then ((0, -1), Align.C)
  else if position = "br" then ((-1, -1), Align.R)
  else if position = "bl" then ((0, -1), Align.L)
  else if position = "tc" then ((0.49, 0.99), ta)
  else if position = "tr" then ((0.99, 0.99), Align.R)
  else if position = "tl" then ((0, 0.99), Align.L)
  else ((0, -1), Align.C)

/-- Embedding of `process_args` (cli.py lines 129-178): refuses writing
binary data to a terminal, parses the hex color (a `ValueError` becomes an
error return), coerces the alignment, derives the default margin, converts
pages from 1-based to 0-based indexing, and resolves the position anchor. -/
def processArgs (args : Args) : Except String ProcessedArgs :=
  if args.output = "" && args.stdout_isatty then
    .error "--output must be specified or stdout redirected."
  else
    match hex2rgb args.text_color with
    | .error e => .error ("argument --text-color: " ++ e)
    | .ok rgb =>
      let ta := coerceAlign args.text_align
      let pm := derivePageMargin args.page_margin args.font_size
      let ig := args.ignore_pages.map (· - 1)
      let sk := args.skip_pages.map (· - 1)
      let tpa := processAnchor args.position args.text_position ta
      .ok { first_number := args.first_number
            ignore_pages := ig
            skip_pages := sk
            stamp_format := args.stamp_format
            font_size := args.font_size
            font_family := args.font_family
            text_color := rgb
            text_align := tpa.2
            text_position := tpa.1
            page_margin := pm
            output := args.output }

/-- The field names of the `PdfNumberer` dataclass (core.py lines 15-25).
`@dataclass(slots=True, kw_only=True)` accepts exactly these keywords. -/
def pdfNumbererFields : List String :=
  ["color", "font_size", "font_family", "align", "position", "margin",
   "start", "ignore", "skip"]

/-- The keyword arguments `main` passes to the `PdfNumberer` constructor
(cli.py lines 191-202). -/
def mainCtorKwargs : List String :=
  ["first_number", "ignore_pages", "skip_pages", "stamp_format", "font_size",
   "font_family", "text_color", "text_align", "text_position", "page_margin"]

/-- The keyword arguments of `main`'s constructor call that are not
`PdfNumberer` fields.  -/
def badCtorKwargs : List String :=
  ["first_number", "ignore_pages", "skip_pages", "stamp_format",
   "text_color", "text_align", "text_position", "page_margin"]

/-- A hypothetical `PdfNumberer` built from the keywords of `main`'s call
that do name fields (only `font_size` and `font_family` do); every other
field keeps its dataclass default.  Reached by `mainModel` only if every
keyword were a field. -/
def pdfNumbererOfProcessed (a : ProcessedArgs) : PdfNumberer :=
  { font_size := a.font_size, font_family := a.font_family }

/-- Embedding of `main` (cli.py lines 181-213): parse/post-process the
arguments; on a post-processing error, `parser.error` aborts the run before
any page is read.  Otherwise Python binds the constructor call's keywords to
the dataclass's slots: a keyword that names no field raises `TypeError`,
again before `add_page_numbering` runs.  Only if every keyword matched would
the pages be stamped and written. -/
def mainModel (args : Args) (pages : List Page) : Except String (List Page) :=
  match processArgs args with
  | .error e => .error e
  | .ok a =>
    if mainCtorKwargs.all (fun k => decide (k ∈ pdfNumbererFields)) then
      .ok (addPageNumbering (pdfNumbererOfProcessed a) pages)
    else
      .error "TypeError"

/-! ## Spec-side reference definitions

These follow the specification's words, to be compared with the definitions
translated from the source. -/

/-- The reference algorithm of the claim on `_create_page_numbers`, written
as a left fold that threads the counter and appends one decision per page, in
page order: a counter starts at `config.start`; a page whose index is in the
ignore-set yields Skip with the counter unchanged (tested first); otherwise a
page whose index is in the skip-set yields Skip with the counter incremented;
otherwise the page yields Stamp(counter) and the counter is incremented. -/
def claimSequence (cfg : PdfNumberer) (pages : List Page) : List (Option ℤ) :=
  (pages.foldl
    (fun (acc : List (Option ℤ) × ℤ) (page : Page) =>
      if page.pageNumber ∈ cfg.ignore then (acc.1 ++ [none], acc.2)
      else if page.pageNumber ∈ cfg.skip then (acc.1 ++ [none], acc.2 + 1)
      else (acc.1 ++ [some acc.2], acc.2 + 1))
    ([], cfg.start)).1

/-- Replace each two-character hole `\x7b\x7d` of a template by the next
argument in turn (extra arguments are ignored, as in Python's `str.format`).
The explicit fuel makes the recursion structural. -/
def fillHoles : ℕ → List Char → List String → List Char
  | 0, cs, _ => cs
  | _ + 1, [], _ => []
  | fuel + 1, c :: rest, args =>
    if c = '\x7b' then
      match rest, args with
      | '\x7d' :: rest2, a :: as => a.data ++ fillHoles fuel rest2 as
      | _, _ => c :: fillHoles fuel rest args
    else
      c :: fillHoles fuel rest args

/-- The spec's stamp-text formatting: the stamp text format template,
formatted with the computed page number and the total page count (Python
`template.format(number, count)`, holes written `\x7b\x7d`). -/
def specFormatText (template : String) (number : ℤ) (count : ℕ) : String :=
  String.mk (fillHoles template.data.length template.data [toString number, toString count])

/-! ## Concrete example values -/

/-- A page with the given index and dimensions and no overlays yet. -/
def mkPage (i : ℤ) (w h : ℚ) : Page :=
  { pageNumber := i, width := w, height := h, overlays := [] }

/-- A 600 x 800 pt page with the given index. -/
def pg (i : ℤ) : Page := mkPage i 600 800

/-- Configuration with margin (10,15), font size 12 and position (0,-1). -/
def cfgGeomA : PdfNumberer := { margin := (10, 15), font_size := 12, position := (0, -1) }

/-- Configuration with margin (10,15), font size 12 and position (-1,-1). -/
def cfgGeomB : PdfNumberer := { margin := (10, 15), font_size := 12, position := (-1, -1) }

/-- Configuration with start 1 and skip-set containing page index 1. -/
def cfgSkipMid : PdfNumberer := { start := 1, skip := [1] }

/-- Configuration with start 1 and page index 0 in both the ignore-set and
the skip-set. -/
def cfgBothSets : PdfNumberer := { start := 1, ignore := [0], skip := [0] }

/-- Arguments that pass post-processing: an output destination is given and
all other options keep their parser defaults. -/
def argsOk : Args := { output := "out.pdf" }

/-- Arguments with a malformed `--text-color` and an output destination. -/
def argsBadColor : Args := { text_color := "#xyz", output := "out.pdf" }

/-- The `PdfNumberer` with all fields at their dataclass defaults. -/
def cfgCore : PdfNumberer := {}

/-- Configuration with page index 0 in the ignore-set. -/
def cfgIgnoreZero : PdfNumberer := { ignore := [0] }

/-- The text of every overlay on every page after `add_page_numbering`. -/
def stampTexts (cfg : PdfNumberer) (pages : List Page) : List (List String) :=
  (addPageNumbering cfg pages).map fun page => page.overlays.map Stamp.text

/-! ## General lemmas about the sequencer -/

theorem createPageNumbersAux_length (cfg : PdfNumberer) (idxs : List ℤ) (c : ℤ) :
    (createPageNumbersAux cfg c idxs).length = idxs.length := by
  induction idxs generalizing c with
  | nil => rfl
  | cons p ps ih =>
    by_cases h1 : p ∈ cfg.ignore
    · simp [createPageNumbersAux, h1, ih]
    · by_cases h2 : p ∈ cfg.skip <;> simp [createPageNumbersAux, h1, h2, ih]

theorem claimSequence_foldl (cfg : PdfNumberer) (pages : List Page)
    (acc : List (Option ℤ)) (c : ℤ) :
    (pages.foldl
      (fun (acc : List (Option ℤ) × ℤ) (page : Page) =>
        if page.pageNumber ∈ cfg.ignore then (acc.1 ++ [none], acc.2)
        else if page.pageNumber ∈ cfg.skip then (acc.1 ++ [none], acc.2 + 1)
        else (acc.1 ++ [some acc.2], acc.2 + 1))
      (acc, c)).1 = acc ++ createPageNumbersAux cfg c (pages.map Page.pageNumber) := by
  induction pages generalizing acc c with
  | nil => simp [createPageNumbersAux]
  | cons page ps ih =>
    by_cases h1 : page.pageNumber ∈ cfg.ignore
    · simp [List.foldl_cons, h1, ih, createPageNumbersAux]
    · by_cases h2 : page.pageNumber ∈ cfg.skip <;>
        simp [List.foldl_cons, h1, h2, ih, createPageNumbersAux]

theorem createPageNumbersAux_congr (cfg : PdfNumberer) (ig sk : List ℤ)
    (idxs : List ℤ) (c : ℤ)
    (hig : ∀ p ∈ idxs, p ∈ cfg.ignore ↔ p ∈ ig)
    (hsk : ∀ p ∈ idxs, p ∈ cfg.skip ↔ p ∈ sk) :
    createPageNumbersAux cfg c idxs =
      createPageNumbersAux { cfg with ignore := ig, skip := sk } c idxs := by
  induction idxs generalizing c with
  | nil => rfl
  | cons p ps ih =>
    have h1 := hig p (List.mem_cons_self p ps)
    have h2 := hsk p (List.mem_cons_self p ps)
    have ih' := fun c => ih c
      (fun q hq => hig q (List.mem_cons_of_mem p hq))
      (fun q hq => hsk q (List.mem_cons_of_mem p hq))
    by_cases hp : p ∈ cfg.ignore
    · simp [createPageNumbersAux, hp, h1.mp hp, ih']
    · have hp' : p ∉ ig := fun h => hp (h1.mpr h)
      by_cases hq : p ∈ cfg.skip
      · simp [createPageNumbersAux, hp, hp', hq, h2.mp hq, ih']
      · have hq' : p ∉ sk := fun h => hq (h2.mpr h)
        simp [createPageNumbersAux, hp, hp', hq, hq', ih']

theorem createPageNumbersAux_get?_some (cfg : PdfNumberer) (idxs : List ℤ)
    (c : ℤ) (i : ℕ) (n : ℤ)
    (h : (createPageNumbersAux cfg c idxs).get? i = some (some n)) :
    n = c + ((idxs.take i).countP fun p => !decide (p ∈ cfg.ignore)) := by
  induction idxs generalizing c i with
  | nil => simp [createPageNumbersAux] at h
  | cons p ps ih =>
    by_cases h1 : p ∈ cfg.ignore
    · cases i with
      | zero => simp [createPageNumbersAux, h1] at h
      | succ i =>
        rw [createPageNumbersAux, if_pos h1, List.get?_cons_succ] at h
        have := ih c i h
        simp only [List.take_succ_cons, List.countP_cons, h1]
        simp only [this]
        push_cast
        simp [h1]
    · by_cases h2 : p ∈ cfg.skip
      · cases i with
        | zero => simp [createPageNumbersAux, h1, h2] at h
        | succ i =>
          rw [createPageNumbersAux, if_neg h1, if_pos h2, List.get?_cons_succ] at h
          have := ih (c + 1) i h
          simp only [List.take_succ_cons, List.countP_cons]
          simp only [this]
          simp [h1]
          ring
      · cases i with
        | zero =>
          rw [createPageNumbersAux, if_neg h1, if_neg h2, List.get?_cons_zero] at h
          simp at h
          simp [h]
        | succ i =>
          rw [createPageNumbersAux, if_neg h1, if_neg h2, List.get?_cons_succ] at h
          have := ih (c + 1) i h
          simp only [List.take_succ_cons, List.countP_cons]
          simp only [this]
          simp [h1]
          ring

theorem createPageNumbersAux_chain (cfg : PdfNumberer) (idxs : List ℤ) (c : ℤ) :
    List.Chain' (· < ·) ((createPageNumbersAux cfg c idxs).filterMap id) ∧
    ∀ n ∈ (createPageNumbersAux cfg c idxs).filterMap id, c ≤ n := by
  induction idxs generalizing c with
  | nil => simp [createPageNumbersAux]
  | cons p ps ih =>
    by_cases h1 : p ∈ cfg.ignore
    · simpa [createPageNumbersAux, h1, List.filterMap_cons] using ih c
    · by_cases h2 : p ∈ cfg.skip
      · have h' := ih (c + 1)
        refine ⟨?_, ?_⟩
        · simpa [createPageNumbersAux, h1, h2, List.filterMap_cons] using h'.1
        · intro n hn
          rw [createPageNumbersAux, if_neg h1, if_pos h2] at hn
          simp only [List.filterMap_cons] at hn
          have := h'.2 n hn
          omega
      · have h' := ih (c + 1)
        have hform : (createPageNumbersAux cfg c (p :: ps)).filterMap id =
            c :: (createPageNumbersAux cfg (c + 1) ps).filterMap id := by
          rw [createPageNumbersAux, if_neg h1, if_neg h2]
          simp [List.filterMap_cons]
        refine ⟨?_, ?_⟩
        · rw [hform, List.chain'_cons']
          refine ⟨fun y hy => ?_, h'.1⟩
          have hmem := List.mem_of_mem_head? hy
          have := h'.2 y hmem
          omega
        · intro n hn
          rw [hform] at hn
          rcases List.mem_cons.mp hn with rfl | hn'
          · omega
          · have := h'.2 n hn'
            omega

theorem createPageNumbersAux_get?_none (cfg : PdfNumberer) (idxs : List ℤ)
    (c : ℤ) (j : ℕ) (p : ℤ)
    (hd : (createPageNumbersAux cfg c idxs).get? j = some none)
    (hp : idxs.get? j = some p) :
    p ∈ cfg.ignore ∨ p ∈ cfg.skip := by
  induction idxs generalizing c j with
  | nil => simp at hp
  | cons q ps ih =>
    cases j with
    | zero =>
      rw [List.get?_cons_zero] at hp
      injection hp with hp
      by_cases h1 : q ∈ cfg.ignore
      · exact Or.inl (hp ▸ h1)
      · by_cases h2 : q ∈ cfg.skip
        · exact Or.inr (hp ▸ h2)
        · rw [createPageNumbersAux, if_neg h1, if_neg h2, List.get?_cons_zero] at hd
          simp at hd
    | succ j =>
      rw [List.get?_cons_succ] at hp
      by_cases h1 : q ∈ cfg.ignore
      · rw [createPageNumbersAux, if_pos h1, List.get?_cons_succ] at hd
        exact ih c j hd hp
      · by_cases h2 : q ∈ cfg.skip
        · rw [createPageNumbersAux, if_neg h1, if_pos h2, List.get?_cons_succ] at hd
          exact ih (c + 1) j hd hp
        · rw [createPageNumbersAux, if_neg h1, if_neg h2, List.get?_cons_succ] at hd
          exact ih (c + 1) j hd hp

end PdfNumbering

namespace PdfNumbering

/-- C1: For every ordered page sequence and every `PdfNumberer`
configuration, `_create_page_numbers` produces one decision per page in page
order by the reference algorithm: a counter starts at `start`; a page whose
index is in the ignore-set yields Skip with the counter unchanged (tested
before the skip-set, so ignore wins when an index is in both); otherwise a
page whose index is in the skip-set yields Skip with the counter incremented
by 1; otherwise the page yields Stamp(counter) and the counter is
incremented by 1. -/
theorem C1_sequencer_follows_reference (cfg : PdfNumberer) (pages : List Page) :
    createPageNumbers cfg pages = claimSequence cfg pages ∧
    (createPageNumbers cfg pages).length = pages.length := by
  constructor
  · rw [claimSequence, claimSequence_foldl cfg pages [] cfg.start]
    simp [createPageNumbers]
  · rw [createPageNumbers, createPageNumbersAux_length]
    simp

/-- C8: the sequencer is total (one decision per page, never raising), and
ignore-set or skip-set entries outside the valid page range — negative
indices included — never match any page: restricting both sets to the
indices actually present leaves the output unchanged. -/
theorem C8_total_and_lenient (cfg : PdfNumberer) (pages : List Page) :
    (createPageNumbers cfg pages).length = pages.length ∧
    createPageNumbers cfg pages =
      createPageNumbers
        { cfg with
            ignore := cfg.ignore.filter fun p => decide (p ∈ pages.map Page.pageNumber)
            skip := cfg.skip.filter fun p => decide (p ∈ pages.map Page.pageNumber) }
        pages := by
  constructor
  · rw [createPageNumbers, createPageNumbersAux_length]
    simp
  · rw [createPageNumbers, createPageNumbers]
    exact createPageNumbersAux_congr cfg _ _ _ cfg.start
      (fun p hp => ⟨fun h => List.mem_filter.mpr ⟨h, by simpa using hp⟩,
        fun h => (List.mem_filter.mp h).1⟩)
      (fun p hp => ⟨fun h => List.mem_filter.mpr ⟨h, by simpa using hp⟩,
        fun h => (List.mem_filter.mp h).1⟩)

/-- C10: for every positive font size, when `--page-margin` is not given the
configuration layer derives the default margin as horizontal 10 points and
vertical `10 + font_size / 2` points. -/
theorem C10_default_margin (fs : ℤ) (_h : 0 < fs) :
    derivePageMargin none fs = (10, 10 + fs / 2) := by
  rw [derivePageMargin, Int.fdiv_eq_ediv fs (by norm_num)]

/-- Witness for C10 at font size 13. -/
theorem C10_default_margin_witness :
    (0 : ℤ) < 13 ∧ derivePageMargin none 13 = (10, 10 + (13 : ℤ) / 2) :=
  ⟨by norm_num, C10_default_margin 13 (by norm_num)⟩

/-- C3, counterexample: with start 1 and skip-set \x7b1\x7d on pages 0,1,2
the consecutive Stamp decisions carry 1 and then 3 — they do not increase by
exactly 1.  And with page 0 in both sets on pages 0,1 the first Stamp carries
1 = start although the earlier page 0 is in the skip-set — "equals start
exactly when no earlier page was in the skip-set" fails in both directions
of reading. -/
theorem C3_counterexample :
    stampedNumbers cfgSkipMid [pg 0, pg 1, pg 2] = [1, 3] ∧
    ¬((1 : ℤ) + 1 = 3) ∧
    createPageNumbers cfgBothSets [pg 0, pg 1] = [none, some 1] ∧
    (0 : ℤ) ∈ cfgBothSets.skip ∧
    cfgBothSets.start = 1 := by
  decide

/-- C3, amended: in the sequencer's output the numbers carried by Stamp
decisions strictly increase in page order; the Stamp at position `i` carries
`start` plus the number of earlier pages not in the ignore-set (so
consecutive Stamp numbers differ by 1 plus the number of intervening
skip-consuming pages); and the first Stamp decision's number equals `start`
exactly when no earlier page is in the skip-set without also being in the
ignore-set. -/
theorem C3_stamp_numbers (cfg : PdfNumberer) (pages : List Page) :
    List.Chain' (· < ·) (stampedNumbers cfg pages) ∧
    (∀ i : ℕ, ∀ n : ℤ,
      (createPageNumbers cfg pages).get? i = some (some n) →
      n = cfg.start +
        ((pages.map Page.pageNumber).take i).countP
          (fun p => !decide (p ∈ cfg.ignore))) ∧
    (∀ k : ℕ, ∀ n : ℤ,
      (∀ d ∈ (createPageNumbers cfg pages).take k, d = none) →
      (createPageNumbers cfg pages).get? k = some (some n) →
      (n = cfg.start ↔
        ∀ p ∈ (pages.map Page.pageNumber).take k,
          ¬(p ∈ cfg.skip ∧ p ∉ cfg.ignore))) := by
  refine ⟨(createPageNumbersAux_chain cfg _ cfg.start).1, ?_, ?_⟩
  · intro i n h
    exact createPageNumbersAux_get?_some cfg _ cfg.start i n h
  · intro k n hnone h
    have hchar := createPageNumbersAux_get?_some cfg _ cfg.start k n h
    have hcount : n = cfg.start ↔
        ((pages.map Page.pageNumber).take k).countP
          (fun p => !decide (p ∈ cfg.ignore)) = 0 := by
      omega
    rw [hcount, List.countP_eq_zero]
    constructor
    · intro hall p hp hps
      have := hall p hp
      simp at this
      exact hps.2 this
    · intro hall p hp
      simp only [Bool.not_eq_true, decide_eq_false_iff_not, not_not]
      by_contra hpig
      simp at hpig
      rcases List.mem_take_iff_getElem.mp hp with ⟨j, hj, hpj⟩
      have hjk : j < k := lt_of_lt_of_le hj inf_le_left
      have hjlen : j < (pages.map Page.pageNumber).length := lt_of_lt_of_le hj inf_le_right
      have hdlen : (createPageNumbers cfg pages).length =
          (pages.map Page.pageNumber).length := by
        rw [createPageNumbers, createPageNumbersAux_length]
      have hjd : j < (createPageNumbers cfg pages).length := by omega
      have hdmem : (createPageNumbers cfg pages).get ⟨j, hjd⟩ ∈
          (createPageNumbers cfg pages).take k := by
        rw [List.mem_take_iff_getElem]
        exact ⟨j, by simp [hjk, hjd, lt_inf_iff], by simp [List.get_eq_getElem]⟩
      have hdj : (createPageNumbers cfg pages).get? j = some none := by
        rw [List.get?_eq_some]
        exact ⟨hjd, hnone _ hdmem⟩
      have hpj' : (pages.map Page.pageNumber).get? j = some p := by
        rw [List.get?_eq_some]
        exact ⟨hjlen, by simpa [List.get_eq_getElem] using hpj⟩
      have := createPageNumbersAux_get?_none cfg _ cfg.start j p hdj hpj'
      rcases this with hig | hsk
      · exact hpig hig
      · exact hall p hp ⟨hsk, hpig⟩

/-- Witness for C3: applying the characterization on the skip-in-the-middle
document, the Stamp at position 2 carries 3 = 1 + 2. -/
theorem C3_stamp_numbers_witness :
    (3 : ℤ) = cfgSkipMid.start +
      (([pg 0, pg 1, pg 2].map Page.pageNumber).take 2).countP
        (fun p => !decide (p ∈ cfgSkipMid.ignore)) :=
  (C3_stamp_numbers cfgSkipMid [pg 0, pg 1, pg 2]).2.1 2 3 (by decide)

/-- C2, counterexample: on a 600 x 800 page with margin (10,15), position
(0,-1) resolves to y = 784 = 800 - 16, not 800 - 15 as claimed, and position
(-1,-1) resolves to x = 589 = 600 - 11, not 600 - 10 as claimed (the raw
coordinate `copysign(m,p) + p` carries the extra `p` into the offset). -/
theorem C2_counterexample :
    (createStamp cfgGeomA (pg 0) "1").y = 784 ∧ ((784 : ℚ) ≠ 800 - 15) ∧
    (createStamp cfgGeomB (pg 0) "1").x = 589 ∧ ((589 : ℚ) ≠ 600 - 10) := by
  norm_num [createStamp, cfgGeomA, cfgGeomB, pg, mkPage, copysign, fpdfCoord]

/-- C2, amended: for every page width and height, with margin (10,15) the
stamp geometry places position (0,-1) at absolute coordinates
(10, page_height - 16) and position (-1,-1) at (page_width - 11,
page_height - 16): the resolved offset from the high edge is margin + 1,
because the position component itself is added after `copysign`. -/
theorem C2_stamp_geometry (w h : ℚ) (text : String) :
    (createStamp cfgGeomA (mkPage 0 w h) text).x = 10 ∧
    (createStamp cfgGeomA (mkPage 0 w h) text).y = h - 16 ∧
    (createStamp cfgGeomB (mkPage 0 w h) text).x = w - 11 ∧
    (createStamp cfgGeomB (mkPage 0 w h) text).y = h - 16 := by
  norm_num [createStamp, cfgGeomA, cfgGeomB, mkPage, copysign, fpdfCoord]
  exact ⟨by ring, by ring, by ring⟩

/-- C9: a page whose decision is Skip (`None`) is left completely unchanged
by `add_page_numbering`: no stamp overlay is merged onto it. -/
theorem C9_skip_pages_untouched (cfg : PdfNumberer) (pages : List Page) (i : ℕ)
    (h : (createPageNumbers cfg pages).get? i = some none) :
    (addPageNumbering cfg pages).get? i = pages.get? i := by
  have hdlen : (createPageNumbers cfg pages).length = pages.length := by
    rw [createPageNumbers, createPageNumbersAux_length]
    simp
  have hi : i < (createPageNumbers cfg pages).length := (List.get?_eq_some.mp h).1
  have hip : i < pages.length := by omega
  obtain ⟨page, hpage⟩ : ∃ page, pages.get? i = some page :=
    ⟨pages.get ⟨i, hip⟩, (List.get?_eq_some.mpr ⟨hip, rfl⟩)⟩
  have hzip : ((createPageNumbers cfg pages).zip pages).get? i = some (none, page) :=
    (List.get?_zip_eq_some _ _ _ _).mpr ⟨h, hpage⟩
  rw [addPageNumbering, List.get?_map, hzip]
  simpa using hpage.symm

/-- Witness for C9: with page index 0 ignored, the single page of the
document comes out of `add_page_numbering` exactly as it went in. -/
theorem C9_skip_pages_untouched_witness :
    (addPageNumbering cfgIgnoreZero [pg 0]).get? 0 = ([pg 0] : List Page).get? 0 :=
  C9_skip_pages_untouched cfgIgnoreZero [pg 0] 0 (by decide)

/-- C4, counterexample: the core stamps `str(n)` — the text of the stamped
overlay is "1" for Stamp(1) — whereas formatting a configured template such
as "p\x7b\x7d" with the number would give "p1".  The template does not
determine the stamped text (the `PdfNumberer` dataclass has no stamp-format
field at all, so no configured template ever reaches the stamping code). -/
theorem C4_counterexample :
    stampTexts cfgCore [pg 0] = [["1"]] ∧
    specFormatText "p\x7b\x7d" 1 1 = "p1" ∧
    ("1" : String) ≠ "p1" := by
  refine ⟨?_, by decide, by decide⟩
  show (addPageNumbering cfgCore [pg 0]).map _ = _
  decide

/-- C4, amended: for every page that receives a `Stamp(n)` decision, the text
stamped onto it is `str(n)`, the decimal rendering of the computed number:
`add_page_numbering` merges onto the page exactly the overlay
`_create_stamp(page, str(n))`, appending an overlay whose text is
`toString n`.  No stamp text format template is involved: `PdfNumberer` has
no such field, and the CLI's `--stamp-format` value never reaches the core. -/
theorem C4_stamp_text (cfg : PdfNumberer) (pages : List Page) (i : ℕ) (n : ℤ)
    (h : (createPageNumbers cfg pages).get? i = some (some n)) :
    ∃ page, pages.get? i = some page ∧
      (addPageNumbering cfg pages).get? i =
        some (mergeStamp page (createStamp cfg page (toString n))) ∧
      (mergeStamp page (createStamp cfg page (toString n))).overlays.map Stamp.text =
        page.overlays.map Stamp.text ++ [toString n] := by
  have hdlen : (createPageNumbers cfg pages).length = pages.length := by
    rw [createPageNumbers, createPageNumbersAux_length]
    simp
  have hi : i < (createPageNumbers cfg pages).length := (List.get?_eq_some.mp h).1
  have hip : i < pages.length := by omega
  refine ⟨pages.get ⟨i, hip⟩, List.get?_eq_some.mpr ⟨hip, rfl⟩, ?_, ?_⟩
  · have hzip : ((createPageNumbers cfg pages).zip pages).get? i =
        some (some n, pages.get ⟨i, hip⟩) :=
      (List.get?_zip_eq_some _ _ _ _).mpr ⟨h, List.get?_eq_some.mpr ⟨hip, rfl⟩⟩
    rw [addPageNumbering, List.get?_map, hzip]
    rfl
  · simp [mergeStamp, createStamp]

/-- Witness for C4: the single default-configured page receives the overlay
text `str(1)`. -/
theorem C4_stamp_text_witness :
    ∃ page, ([pg 0] : List Page).get? 0 = some page ∧
      (addPageNumbering cfgCore [pg 0]).get? 0 =
        some (mergeStamp page (createStamp cfgCore page (toString (1 : ℤ)))) ∧
      (mergeStamp page (createStamp cfgCore page (toString (1 : ℤ)))).overlays.map
          Stamp.text =
        page.overlays.map Stamp.text ++ [toString (1 : ℤ)] :=
  C4_stamp_text cfgCore [pg 0] 0 1 (by decide)

/-- C5, counterexample: when no anchor is given (`--position` left at its
empty default), an explicitly supplied text position (5,7) with right
alignment is NOT passed through unchanged: the trailing `else` branch of
`process_args` overwrites both with the bottom-center defaults. -/
theorem C5_counterexample :
    processAnchor "" (5, 7) Align.R = ((0, -1), Align.C) ∧
    (((0 : ℚ), (-1 : ℚ)), Align.C) ≠ (((5 : ℚ), (7 : ℚ)), Align.R) := by
  decide

/-- C5, amended: the anchor-resolution chain of `process_args` maps
bc to position (0,-1) with center alignment, br to (-1,-1) right, bl to
(0,-1) left, tr to (0.99,0.99) right and tl to (0,0.99) left; tc sets only
the position (0.49,0.99) and keeps the supplied alignment; and for any other
`--position` value — including the empty default — the text position and
alignment are overwritten with the bottom-center defaults (0,-1)/center,
discarding any explicitly supplied values. -/
theorem C5_anchor_resolution (tp : ℚ × ℚ) (ta : Align) :
    processAnchor "bc" tp ta = ((0, -1), Align.C) ∧
    processAnchor "br" tp ta = ((-1, -1), Align.R) ∧
    processAnchor "bl" tp ta = ((0, -1), Align.L) ∧
    processAnchor "tc" tp ta = ((0.49, 0.99), ta) ∧
    processAnchor "tr" tp ta = ((0.99, 0.99), Align.R) ∧
    processAnchor "tl" tp ta = ((0, 0.99), Align.L) ∧
    ∀ s : String, s ∉ (["bc", "br", "bl", "tc", "tr", "tl"] : List String) →
      processAnchor s tp ta = ((0, -1), Align.C) := by
  refine ⟨rfl, rfl, rfl, rfl, rfl, rfl, ?_⟩
  intro s hs
  simp only [List.mem_cons, List.mem_singleton, not_or] at hs
  obtain ⟨h1, h2, h3, h4, h5, h6, -⟩ := hs
  rw [processAnchor, if_neg h1, if_neg h2, if_neg h3, if_neg h4, if_neg h5, if_neg h6]

/-- Witness for C5: the tc anchor keeps the supplied right alignment, and the
empty anchor resets position (5,7)/right to the bottom-center defaults. -/
theorem C5_anchor_resolution_witness :
    processAnchor "tc" (5, 7) Align.R = ((0.49, 0.99), Align.R) ∧
    processAnchor "" (5, 7) Align.R = ((0, -1), Align.C) := by
  have h := C5_anchor_resolution (5, 7) Align.R
  exact ⟨h.2.2.2.1, h.2.2.2.2.2.2 "" (by decide)⟩

/-- C6: every keyword argument of `main`'s `PdfNumberer(...)` call other
than `font_size` and `font_family` — namely first_number, ignore_pages,
skip_pages, stamp_format, text_color, text_align, text_position and
page_margin — names no field of the `PdfNumberer` dataclass (fields: color,
font_size, font_family, align, position, margin, start, ignore, skip), so
whenever argument post-processing succeeds the construction raises
`TypeError` before any page is processed. -/
theorem C6_main_constructor_typeerror :
    (∀ k ∈ badCtorKwargs, k ∉ pdfNumbererFields) ∧
    (∀ k ∈ badCtorKwargs, k ∈ mainCtorKwargs) ∧
    ∀ args : Args, ∀ pages : List Page,
      (processArgs args).isOk = true →
      mainModel args pages = .error "TypeError" := by
  refine ⟨by decide, by decide, ?_⟩
  intro args pages h
  cases heq : processArgs args with
  | error e => rw [heq] at h; simp [Except.isOk, Except.toBool] at h
  | ok a =>
    have hall : (mainCtorKwargs.all fun k => decide (k ∈ pdfNumbererFields)) = false := by
      decide
    rw [mainModel, heq]
    simp [hall]

/-- Witness for C6: with an output destination given and every other option
at its default, post-processing succeeds and the modelled `main` fails with
`TypeError` before touching the (empty) page list. -/
theorem C6_main_constructor_typeerror_witness :
    mainModel argsOk [] = Except.error "TypeError" :=
  C6_main_constructor_typeerror.2.2 argsOk [] (by decide)

/-- C7: an invalid color string makes `process_args` fail with the
`InvalidColorFormat` error at configuration time (provided the usage check on
the output destination passes first), and every configuration error aborts
the entire run: the modelled `main` returns the error and no page list —
there is never partial or best-effort stamping of a subset of pages. -/
theorem C7_config_errors_abort (args : Args) (pages : List Page) (e : String)
    (hout : (decide (args.output = "") && args.stdout_isatty) = false)
    (hcolor : hex2rgb args.text_color = .error e) :
    processArgs args = .error ("argument --text-color: " ++ e) ∧
    ∀ args' : Args, ∀ msg : String, ∀ pgs : List Page,
      processArgs args' = .error msg → mainModel args' pgs = .error msg := by
  constructor
  · rw [processArgs]
    simp only [hout, Bool.false_eq_true, if_false, hcolor]
  · intro args' msg pgs h
    rw [mainModel, h]

/-- Witness for C7: the color string "#xyz" aborts the run with the
`InvalidColorFormat` error and no page is stamped. -/
theorem C7_config_errors_abort_witness :
    processArgs argsBadColor = .error "argument --text-color: InvalidColorFormat" ∧
    mainModel argsBadColor [] = .error "argument --text-color: InvalidColorFormat" := by
  have h := C7_config_errors_abort argsBadColor [] "InvalidColorFormat"
    (by decide) (by decide)
  exact ⟨h.1, h.2 argsBadColor _ [] h.1⟩

end PdfNumbering
